import Mathlib

/-!
Verification of the transaction-pipeline core of a personal-finance tool
(statement parsers, categorizer, transaction store, monthly aggregator).

Modelling conventions for the shallow embedding:
* Python `float` amounts are modelled as exact rationals (`ℚ`); the dedup
  tolerance `0.01` is the rational `1/100`.
* Python `datetime` values are modelled by `PyDateTime` (year, month, day,
  hour, minute, second) compared lexicographically, exactly as Python
  compares `datetime` objects.  Field validity (month ≤ 12 etc.) is enforced
  where the source enforces it (`strptime` validation) and nowhere else.
* Spreadsheet cells (after `pandas` reads them) are modelled by `Cell`:
  `empty` is a NaN/missing cell, and typed string/number/datetime cells are
  kept apart, mirroring the `pd.isna` / `isinstance` dispatch in the source.
* `str(v)` applied to a number or datetime cell only ever feeds emptiness
  and Hebrew-marker containment checks in the source, so `cellToStr` uses a
  simple rendering for those constructors.
* `str.lower` is modelled by `pyLower` (ASCII case folding; the Hebrew
  keywords involved have no case), `str.strip` by `pyStrip`, `str.split`
  by `splitOnChar` — structural-recursion versions of the library string
  functions, so that every proof can evaluate them.
* `float(s)` is modelled for the sign/decimal/exponent forms that amount
  cells can take; the exotic `inf`/`nan`/underscore spellings accepted by
  Python are never produced by statement cells and are not modelled.
* Stateful methods of `Storage`/`Categorizer` are modelled by explicit
  state passing: they take the current state and return the new state
  together with the method's return value.
-/

/-! ## Dates (Python `datetime`) -/

structure PyDateTime where
  year : Int
  month : Nat
  day : Nat
  hour : Nat := 0
  minute : Nat := 0
  second : Nat := 0
deriving DecidableEq, Repr

/-- Python `datetime` comparison: lexicographic on the components. -/
def PyDateTime.lt (a b : PyDateTime) : Bool :=
  if a.year ≠ b.year then decide (a.year < b.year)
  else if a.month ≠ b.month then decide (a.month < b.month)
  else if a.day ≠ b.day then decide (a.day < b.day)
  else if a.hour ≠ b.hour then decide (a.hour < b.hour)
  else if a.minute ≠ b.minute then decide (a.minute < b.minute)
  else decide (a.second < b.second)

/-- Stand-in for `str(datetime)`; in the source this rendering only feeds
emptiness and Hebrew-marker containment checks. -/
def pyDateTimeStr (d : PyDateTime) : String :=
  toString d.year ++ "-" ++ toString d.month ++ "-" ++ toString d.day

/-! ## Transactions (`parsers.Transaction`) -/

structure Transaction where
  date : PyDateTime
  description : String
  amount : ℚ
  currency : String
  source : String
  source_file : String
  card_number : Option String := none
  category : Option String := none
deriving DecidableEq, Repr

/-! ## String helpers (Python `in`, `\d`, `\s`) -/

/-- `chStart needle hay`: `needle` is an initial segment of `hay`. -/
def chStart : List Char → List Char → Bool
  | [], _ => true
  | _ :: _, [] => false
  | a :: as, b :: bs => a == b && chStart as bs

/-- `charsContains hay needle`: `needle` occurs contiguously in `hay`. -/
def charsContains : List Char → List Char → Bool
  | [], needle => needle.isEmpty
  | c :: rest, needle => chStart needle (c :: rest) || charsContains rest needle

/-- Python's substring test `needle in hay`. -/
def strContains (hay needle : String) : Bool :=
  charsContains hay.data needle.data

/-- Python regex `\s` character class (the ASCII part). -/
def pyIsSpace (c : Char) : Bool :=
  c = ' ' ∨ c = '\t' ∨ c = '\n' ∨ c = '\r' ∨ c = '\x0b' ∨ c = '\x0c'

/-- Python `str.lower`, ASCII case folding (the Hebrew text involved has
no case); structural so that proofs can evaluate it. -/
def pyLower (s : String) : String := ⟨s.data.map Char.toLower⟩

/-- Python `str.strip`. -/
def pyStrip (s : String) : String :=
  ⟨((s.data.dropWhile pyIsSpace).reverse.dropWhile pyIsSpace).reverse⟩

/-- Python `str.split` on a one-character separator. -/
def splitChar (sep : Char) : List Char → List (List Char)
  | [] => [[]]
  | c :: rest =>
    if c = sep then [] :: splitChar sep rest
    else
      match splitChar sep rest with
      | h :: t => (c :: h) :: t
      | [] => [[c]]

def splitOnChar (sep : Char) (s : String) : List String :=
  (splitChar sep s.data).map (fun l => ⟨l⟩)

/-- `' '.join(row_values)`. -/
def joinWithSpace (l : List String) : String :=
  ⟨((l.map (fun s => s.data)).intersperse [' ']).flatten⟩

def allDigits (s : List Char) : Bool := s.all Char.isDigit

def digitsToNat (s : List Char) : Nat :=
  s.foldl (fun acc c => acc * 10 + (c.toNat - 48)) 0

/-! ## `parsers.parse_date` -/

def isLeapYear (y : Int) : Bool :=
  y % 4 == 0 && (y % 100 != 0 || y % 400 == 0)

def daysInMonth (y : Int) (m : Nat) : Nat :=
  if m = 2 then (if isLeapYear y then 29 else 28)
  else if m = 4 ∨ m = 6 ∨ m = 9 ∨ m = 11 then 30
  else 31

/-- `strptime` `%y`: two-digit years 00–68 map to 2000–2068, 69–99 to 1969–1999. -/
def expandTwoDigitYear (n : Nat) : Int :=
  if n ≤ 68 then (2000 + n : Int) else (1900 + n : Int)

/-- `strptime` range validation: year ≥ 1, month 1–12, day valid for the month. -/
def mkValidDate (y : Int) (m d : Nat) : Option PyDateTime :=
  if 1 ≤ y ∧ 1 ≤ m ∧ m ≤ 12 ∧ 1 ≤ d ∧ d ≤ daysInMonth y m then
    some { year := y, month := m, day := d }
  else none

/-- One `day sep month sep year` format (`%d.%m.%y`, `%d.%m.%Y`, `%d/%m/%y`,
`%d/%m/%Y`): `twoDigitYear` selects `%y` (pivoted) versus `%Y`. -/
def parseDMY (sep : Char) (twoDigitYear : Bool) (s : String) : Option PyDateTime :=
  match splitOnChar sep s with
  | [ds, ms, ys] =>
    if allDigits ds.data ∧ allDigits ms.data ∧ allDigits ys.data ∧
       ds.data ≠ [] ∧ ms.data ≠ [] ∧ ys.data ≠ [] ∧
       ds.data.length ≤ 2 ∧ ms.data.length ≤ 2 ∧
       ys.data.length ≤ (if twoDigitYear then 2 else 4) then
      let y : Int :=
        if twoDigitYear then expandTwoDigitYear (digitsToNat ys.data)
        else (digitsToNat ys.data : Int)
      mkValidDate y (digitsToNat ms.data) (digitsToNat ds.data)
    else none
  | _ => none

/-- The `%Y-%m-%d` format. -/
def parseYMD (s : String) : Option PyDateTime :=
  match splitOnChar '-' s with
  | [ys, ms, ds] =>
    if allDigits ds.data ∧ allDigits ms.data ∧ allDigits ys.data ∧
       ds.data ≠ [] ∧ ms.data ≠ [] ∧ ys.data ≠ [] ∧
       ds.data.length ≤ 2 ∧ ms.data.length ≤ 2 ∧ ys.data.length ≤ 4 then
      mkValidDate (digitsToNat ys.data : Int) (digitsToNat ms.data) (digitsToNat ds.data)
    else none
  | _ => none

/-- The five `strptime` formats tried in source order; first success wins. -/
def parseDateStr (s : String) : Option PyDateTime :=
  (parseDMY '.' true s) <|> (parseDMY '.' false s) <|> (parseYMD s) <|>
    (parseDMY '/' true s) <|> (parseDMY '/' false s)

/-! ## Spreadsheet cells -/

inductive Cell where
  | empty
  | str (s : String)
  | num (q : ℚ)
  | dt (d : PyDateTime)
deriving DecidableEq, Repr

/-- `str(v)` on a cell (with NaN rendered `''`, as in the row-text joins). -/
def cellToStr : Cell → String
  | Cell.empty => ""
  | Cell.str s => s
  | Cell.num q => toString q
  | Cell.dt d => pyDateTimeStr d

/-- `parsers.parse_date`: already-typed datetimes pass through, strings are
tried against the fixed formats, anything else is unparsable. -/
def parseDate : Cell → Option PyDateTime
  | Cell.empty => none
  | Cell.dt d => some d
  | Cell.num _ => none
  | Cell.str s => parseDateStr (pyStrip s)

/-- `re.sub(r'[₪$€,\s]', '', s)`. -/
def stripAmountChars (s : String) : String :=
  ⟨s.data.filter (fun c => ¬(c = '₪' ∨ c = '$' ∨ c = '€' ∨ c = ',' ∨ pyIsSpace c))⟩

/-- Exponent suffix of a `float` literal: optional sign then digits. -/
def parseExpPart (cs : List Char) : Option Int :=
  match cs with
  | '+' :: r => if r ≠ [] ∧ allDigits r then some (digitsToNat r : Int) else none
  | '-' :: r => if r ≠ [] ∧ allDigits r then some (-(digitsToNat r : Int)) else none
  | r => if r ≠ [] ∧ allDigits r then some (digitsToNat r : Int) else none

/-- Python `float(s)` on the decimal forms amount cells take:
optional sign, digits with at most one point, optional exponent. -/
def pyFloat? (s : String) : Option ℚ :=
  let withSign : ℚ × List Char :=
    match s.data with
    | '+' :: r => (1, r)
    | '-' :: r => (-1, r)
    | r => (1, r)
  let ipart := withSign.2.takeWhile Char.isDigit
  let rest2 := withSign.2.dropWhile Char.isDigit
  let fpart : List Char :=
    match rest2 with
    | '.' :: r => r.takeWhile Char.isDigit
    | _ => []
  let rest3 : List Char :=
    match rest2 with
    | '.' :: r => r.dropWhile Char.isDigit
    | r => r
  if ipart = [] ∧ fpart = [] then none
  else
    let mantissa : ℚ :=
      (digitsToNat ipart : ℚ) + (digitsToNat fpart : ℚ) / ((10 : ℚ) ^ fpart.length)
    match rest3 with
    | [] => some (withSign.1 * mantissa)
    | 'e' :: r =>
      match parseExpPart r with
      | some e => some (withSign.1 * mantissa * (10 : ℚ) ^ (e : ℤ))
      | none => none
    | 'E' :: r =>
      match parseExpPart r with
      | some e => some (withSign.1 * mantissa * (10 : ℚ) ^ (e : ℤ))
      | none => none
    | _ => none

/-- `parsers.parse_amount`. -/
def parseAmount : Cell → Option ℚ
  | Cell.empty => none
  | Cell.num q => some q
  | Cell.dt _ => none
  | Cell.str s => pyFloat? (stripAmountChars s)

/-! ## `parsers.parse_credit_card_statement` -/

/-- The settlement-currency detection (`'$'`→USD, `'€'`→EUR, else ILS).
In the source its result is computed and then discarded: the emitted
transaction is hard-coded to `'ILS'`. -/
def detectedCurrency (c : Cell) : String :=
  match c with
  | Cell.empty => "ILS"
  | other =>
    let v := pyStrip (cellToStr other)
    if strContains v "$" then "USD"
    else if strContains v "€" then "EUR"
    else "ILS"

/-- First position where four consecutive digits start, if any. -/
def fourDigitsAt (l : List Char) : Option String :=
  match l with
  | a :: b :: c :: d :: _ =>
    if a.isDigit && b.isDigit && c.isDigit && d.isDigit then some ⟨[a, b, c, d]⟩
    else none
  | _ => none

def firstFour : List Char → Option String
  | [] => none
  | x :: rest =>
    match fourDigitsAt (x :: rest) with
    | some s => some s
    | none => firstFour rest

/-- Regex `(\d{4})`, first match: the card number taken from the filename. -/
def firstFourDigits (s : String) : Option String := firstFour s.data

/-- Regex search `[-–]\s*(\d{4})\s*$` on a cell string: the string ends in
four digits, optionally wrapped in whitespace, preceded by a dash. -/
def rowCardNumber (s : String) : Option String :=
  let r1 := s.data.reverse.dropWhile pyIsSpace
  match r1 with
  | d4 :: d3 :: d2 :: d1 :: r2 =>
    if d1.isDigit && d2.isDigit && d3.isDigit && d4.isDigit then
      match r2.dropWhile pyIsSpace with
      | dash :: _ =>
        if dash = '-' ∨ dash = '–' then some ⟨[d1, d2, d3, d4]⟩ else none
      | [] => none
    else none
  | _ => none

/-- The section-scanning loop of `parse_credit_card_statement`:
`inSection` is the `in_transaction_section` flag. -/
def ccScan (filePath : String) (cardNumber : Option String) :
    List (List Cell) → Bool → List Transaction
  | [], _ => []
  | row :: rest, inSection =>
    let rowText := joinWithSpace (row.map cellToStr)
    if strContains rowText "תאריך רכישה" && strContains rowText "שם בית עסק" then
      ccScan filePath cardNumber rest true
    else if inSection then
      match row.getD 0 Cell.empty with
      | Cell.empty => ccScan filePath cardNumber rest true
      | firstVal =>
        let firstStr := cellToStr firstVal
        if strContains firstStr "סה\"כ" || pyStrip firstStr = "" then
          ccScan filePath cardNumber rest false
        else
          match parseDate firstVal with
          | none => ccScan filePath cardNumber rest true
          | some date =>
            let businessName := pyStrip (cellToStr (row.getD 1 Cell.empty))
            if businessName = "" ∨ businessName = "טרם נקלט" then
              ccScan filePath cardNumber rest true
            else
              let originalAmount := parseAmount (row.getD 2 Cell.empty)
              let ilsAmount := parseAmount (row.getD 4 Cell.empty)
              let _currencyStr := detectedCurrency (row.getD 3 Cell.empty)
              match ilsAmount <|> originalAmount with
              | none => ccScan filePath cardNumber rest true
              | some finalAmount =>
                { date := date, description := businessName,
                  amount := -|finalAmount|, currency := "ILS",
                  source := "credit_card", source_file := filePath,
                  card_number := cardNumber, category := none } ::
                  ccScan filePath cardNumber rest true
    else
      ccScan filePath cardNumber rest false

/-- `parsers.parse_credit_card_statement`, with the sheet already read into
rows of cells.  The card number is the last in-row `[-–]\s*\d{4}\s*$` match,
falling back to the first four-digit run in the base filename. -/
def parseCreditCardStatement (filePath : String) (rows : List (List Cell)) :
    List Transaction :=
  let fileName := (splitOnChar '/' filePath).getLastD filePath
  let cardFromName := firstFourDigits fileName
  let cardNumber := rows.foldl
    (fun acc row =>
      match row.findSome? (fun c =>
        match c with
        | Cell.str s => rowCardNumber s
        | _ => none) with
      | some n => some n
      | none => acc)
    cardFromName
  ccScan filePath cardNumber rows false

/-! ## `storage.Storage` — the store is the in-memory transaction list.
Stored dicts compare `date` by isoformat string, which is injective on
datetimes, so records are compared field-by-field here. -/

/-- The duplicate test of `Storage.add_transactions`:
same date, same description (case-sensitive), amounts within `0.01`. -/
def isDupOf (e t : Transaction) : Bool :=
  decide (e.date = t.date) && decide (e.description = t.description) &&
    decide (|e.amount - t.amount| < 1 / 100)

/-- One iteration of the `add_transactions` loop. -/
def addOne (s : List Transaction) (t : Transaction) : List Transaction × Nat :=
  if s.any (fun e => isDupOf e t) then (s, 0) else (s ++ [t], 1)

/-- `Storage.add_transactions`: returns the new store and `added_count`.
Later incoming transactions are checked against earlier ones appended in
the same call, as in the source's live-list scan. -/
def addTransactions : List Transaction → List Transaction → List Transaction × Nat
  | s, [] => (s, 0)
  | s, t :: rest =>
    let first := addOne s t
    let more := addTransactions first.1 rest
    (more.1, first.2 + more.2)

/-- `list.sort(key=lambda x: x.date)`: stable ascending insertion sort. -/
def insertByDate (t : Transaction) : List Transaction → List Transaction
  | [] => [t]
  | u :: rest =>
    if PyDateTime.lt u.date t.date then u :: insertByDate t rest
    else t :: u :: rest

def sortByDate : List Transaction → List Transaction
  | [] => []
  | t :: rest => insertByDate t (sortByDate rest)

/-- `Storage.get_transactions`: optional filters, then sort by date.
A transaction is kept unless `date < start`, `date > end`, or a given
category/source differs. -/
def getTransactions (store : List Transaction)
    (startDate endDate : Option PyDateTime)
    (category sourceFilter : Option String) : List Transaction :=
  sortByDate (store.filter (fun t =>
    (match startDate with
     | some s => !(PyDateTime.lt t.date s)
     | none => true) &&
    (match endDate with
     | some e => !(PyDateTime.lt e t.date)
     | none => true) &&
    (match category with
     | some c => decide (t.category = some c)
     | none => true) &&
    (match sourceFilter with
     | some s => decide (t.source = s)
     | none => true)))

/-! ## `storage.Storage.get_monthly_summary` -/

/-- `datetime(year, month, 1)`. -/
def monthStart (year : Int) (month : Nat) : PyDateTime :=
  { year := year, month := month, day := 1 }

/-- First of the following month, rolling over December. -/
def monthEnd (year : Int) (month : Nat) : PyDateTime :=
  if month = 12 then { year := year + 1, month := 1, day := 1 }
  else { year := year, month := month + 1, day := 1 }

/-- The transactions `get_monthly_summary` selects for the month. -/
def monthTransactions (store : List Transaction) (year : Int) (month : Nat) :
    List Transaction :=
  getTransactions store (some (monthStart year month)) (some (monthEnd year month))
    none none

/-- `Storage._is_credit_card_transfer`: the fixed issuer-name fragments. -/
def ccKeywords : List String :=
  ["ישראכרט", "מקס איט", "כאל", "לאומי קארד", "אמריקן אקספרס", "דיינרס",
   "visa cal", "mastercard"]

def isCreditCardTransfer (t : Transaction) : Bool :=
  if t.source ≠ "bank" then false
  else
    let descLower := pyLower t.description
    ccKeywords.any (fun keyword =>
      strContains descLower keyword || strContains descLower (pyLower keyword))

/-- The exclusion condition of the summary loop. -/
def pExcl (excludeCc hasBank hasCc : Bool) (t : Transaction) : Bool :=
  excludeCc && hasBank && hasCc && isCreditCardTransfer t

/-- The income/expenses/excluded partition loop of `get_monthly_summary`,
returned as `(income, expenses, excluded_transfers)` in traversal order. -/
def splitTransactions (excludeCc hasBank hasCc : Bool) :
    List Transaction → List Transaction × List Transaction × List Transaction
  | [] => ([], [], [])
  | t :: rest =>
    let parts := splitTransactions excludeCc hasBank hasCc rest
    if pExcl excludeCc hasBank hasCc t then
      (parts.1, parts.2.1, t :: parts.2.2)
    else if (0 : ℚ) < t.amount then
      (t :: parts.1, parts.2.1, parts.2.2)
    else
      (parts.1, t :: parts.2.1, parts.2.2)

/-- `t.category or 'אחר'` (`None` and the empty string are falsy). -/
def transactionCategory (t : Transaction) : String :=
  match t.category with
  | some c => if c = "" then "אחר" else c
  | none => "אחר"

/-- One `by_category` dict update: create the entry if missing, then add the
amount and append the transaction.  Entries are `(key, total, members)`. -/
def breakdownAdd (d : List (String × ℚ × List Transaction))
    (cat : String) (amt : ℚ) (t : Transaction) :
    List (String × ℚ × List Transaction) :=
  match d with
  | [] => [(cat, amt, [t])]
  | (c, tot, ts) :: rest =>
    if c = cat then (c, tot + amt, ts ++ [t]) :: rest
    else (c, tot, ts) :: breakdownAdd rest cat amt t

/-- The per-category summarising loop (insertion-ordered dict as a list). -/
def buildBreakdown (amtOf : Transaction → ℚ) :
    List Transaction → List (String × ℚ × List Transaction) →
      List (String × ℚ × List Transaction)
  | [], d => d
  | t :: rest, d =>
    buildBreakdown amtOf rest (breakdownAdd d (transactionCategory t) (amtOf t) t)

/-- The dict returned by `get_monthly_summary`. -/
structure MonthlySummary where
  year : Int
  month : Nat
  total_expenses : ℚ
  total_income : ℚ
  balance : ℚ
  expense_by_category : List (String × ℚ × List Transaction)
  income_by_category : List (String × ℚ × List Transaction)
  transaction_count : Nat
  excluded_cc_transfers : List Transaction
  total_excluded : ℚ
deriving DecidableEq, Repr

/-- `Storage.get_monthly_summary`. -/
def getMonthlySummary (store : List Transaction) (year : Int) (month : Nat)
    (excludeCcTransfers : Bool) : MonthlySummary :=
  let transactions := monthTransactions store year month
  let hasBank := transactions.any (fun t => t.source == "bank")
  let hasCc := transactions.any (fun t => t.source == "credit_card")
  let parts := splitTransactions excludeCcTransfers hasBank hasCc transactions
  let income := parts.1
  let expenses := parts.2.1
  let excluded := parts.2.2
  { year := year
    month := month
    total_expenses := (expenses.map (fun t => |t.amount|)).sum
    total_income := (income.map (fun t => t.amount)).sum
    balance := (income.map (fun t => t.amount)).sum -
      (expenses.map (fun t => |t.amount|)).sum
    expense_by_category := buildBreakdown (fun t => |t.amount|) expenses []
    income_by_category := buildBreakdown (fun t => t.amount) income []
    transaction_count := transactions.length
    excluded_cc_transfers := excluded
    total_excluded := (excluded.map (fun t => |t.amount|)).sum }

/-! ## `categorizer.Categorizer` — the catalog and the override mapping are
insertion-ordered dicts, modelled as association lists (first binding wins
on lookup, updates rewrite in place). -/

structure Category where
  name : Option String
  name_en : Option String
  keywords : List String
deriving DecidableEq, Repr

structure Categorizer where
  categories : List (String × Category)
  overrides : List (String × String)
deriving DecidableEq, Repr

/-- Dict lookup (`k in d` / `d[k]`). -/
def assocFind {α : Type} (l : List (String × α)) (k : String) : Option α :=
  (l.find? (fun p => decide (p.1 = k))).map (fun p => p.2)

/-- Dict assignment `d[k] = v`: overwrite in place or append. -/
def assocUpdate : List (String × String) → String → String → List (String × String)
  | [], k, v => [(k, v)]
  | (k1, v1) :: rest, k, v =>
    if k1 = k then (k, v) :: rest else (k1, v1) :: assocUpdate rest k v

/-- `cat.get('name', cat_key)`. -/
def catName (cat : Category) (key : String) : String := cat.name.getD key

/-- `cat.get('name_en', '')`. -/
def catNameEn (cat : Category) : String := cat.name_en.getD ""

/-- `Categorizer.categorize`: exact override (if its key is a known
category), then substring override in insertion order (bidirectional,
case-insensitive, again only if the key is known), then catalog keywords in
order, then the `'אחר'` default. -/
def categorize (c : Categorizer) (description : String) : String × String × String :=
  let descriptionLower := pyLower description
  let descriptionClean := pyStrip description
  let exact : Option (String × String × String) :=
    match assocFind c.overrides descriptionClean with
    | some catKey =>
      match assocFind c.categories catKey with
      | some cat => some (catKey, catName cat catKey, catNameEn cat)
      | none => none
    | none => none
  match exact with
  | some r => r
  | none =>
    let substringMatch : Option (String × String × String) :=
      c.overrides.findSome? (fun p =>
        if strContains descriptionLower (pyLower p.1) ||
            strContains (pyLower p.1) descriptionLower then
          match assocFind c.categories p.2 with
          | some cat => some (p.2, catName cat p.2, catNameEn cat)
          | none => none
        else none)
    match substringMatch with
    | some r => r
    | none =>
      let keywordMatch : Option (String × String × String) :=
        c.categories.findSome? (fun p =>
          p.2.keywords.findSome? (fun keyword =>
            if strContains descriptionLower (pyLower keyword) then
              some (p.1, catName p.2 p.1, catNameEn p.2)
            else none))
      match keywordMatch with
      | some r => r
      | none =>
        match assocFind c.categories "אחר" with
        | some cat => ("אחר", catName cat "אחר", cat.name_en.getD "Other")
        | none => ("אחר", "אחר", "Other")

/-- `Categorizer.add_override`: rejected unless the key is a known category
or the `'אחר'` sentinel; returns the success flag and the new state. -/
def addOverride (c : Categorizer) (description categoryKey : String) :
    Bool × Categorizer :=
  if assocFind c.categories categoryKey = none ∧ categoryKey ≠ "אחר" then
    (false, c)
  else
    (true, { c with overrides := assocUpdate c.overrides description categoryKey })

/-! ## Concrete inputs used by counterexamples and witnesses -/

/-- The bank-side settlement line of the spec's double-counting example,
with the spec's English description. -/
def c2Bank : Transaction :=
  { date := ⟨2026, 3, 15, 0, 0, 0⟩, description := "ISRACARD SETTLEMENT",
    amount := -500, currency := "ILS", source := "bank",
    source_file := "bank.xlsx" }

/-- The same settlement line with a description the fixed fragment list
actually recognises. -/
def c2BankHe : Transaction := { c2Bank with description := "ישראכרט" }

/-- The credit-card line of the double-counting example. -/
def c2Cc : Transaction :=
  { date := ⟨2026, 3, 20, 0, 0, 0⟩, description := "SUPERMARKET",
    amount := -500, currency := "ILS", source := "credit_card",
    source_file := "cc.xlsx", card_number := some "1234" }

/-- A transaction dated exactly midnight on the first of the next month. -/
def aprilFirstTx : Transaction :=
  { date := ⟨2026, 4, 1, 0, 0, 0⟩, description := "APRIL FIRST",
    amount := -10, currency := "ILS", source := "bank",
    source_file := "b.xlsx" }

/-- A zero-amount transaction inside March 2026. -/
def zeroTx : Transaction :=
  { date := ⟨2026, 3, 10, 0, 0, 0⟩, description := "ZERO OP", amount := 0,
    currency := "ILS", source := "bank", source_file := "b.xlsx",
    category := some "misc" }

/-- Header row of a credit-card statement section. -/
def ccHeaderRow : List Cell :=
  [Cell.str "תאריך רכישה", Cell.str "שם בית עסק", Cell.str "סכום עסקה",
   Cell.str "מטבע עסקה", Cell.str "סכום חיוב"]

/-- A data row with a positive foreign amount, a `'$'` currency cell and a
positive settlement amount. -/
def ccDollarRow : List Cell :=
  [Cell.dt ⟨2026, 3, 5, 0, 0, 0⟩, Cell.str "AMAZON", Cell.num 100,
   Cell.str "$", Cell.num 350]

def ccRows : List (List Cell) := [ccHeaderRow, ccDollarRow]

/-- The transaction the credit-card parser produces from `ccRows`. -/
def ccParsedTx : Transaction :=
  { date := ⟨2026, 3, 5, 0, 0, 0⟩, description := "AMAZON", amount := -350,
    currency := "ILS", source := "credit_card",
    source_file := "cc_1234.xlsx", card_number := some "1234" }

/-- Two transactions equal up to an amount difference below the tolerance. -/
def c6T1 : Transaction :=
  { date := ⟨2026, 5, 2, 0, 0, 0⟩, description := "COFFEE", amount := -20,
    currency := "ILS", source := "bank", source_file := "a.xlsx" }

def c6T2 : Transaction :=
  { c6T1 with amount := -20 + 1 / 200, source_file := "b.xlsx" }

/-- A one-category catalog whose keyword matches the test description. -/
def c8Categories : List (String × Category) :=
  [("food", { name := some "Food", name_en := some "Food",
              keywords := ["pizza"] })]

/-- A categorizer whose override maps to the `'אחר'` sentinel while the
catalog has no `'אחר'` entry (the state `add_override` itself produces). -/
def c8State : Categorizer :=
  { categories := c8Categories, overrides := [("pizza hut", "אחר")] }

/-- A two-category catalog: the keyword of the first category matches the
test description, the override sends it to the second. -/
def c8wCategories : List (String × Category) :=
  [("food", { name := some "Food", name_en := some "Food",
              keywords := ["pizza"] }),
   ("transport", { name := some "Transport", name_en := some "Transport",
                   keywords := ["bus"] })]

def c8wState : Categorizer :=
  { categories := c8wCategories, overrides := [("pizza hut", "transport")] }

def c8wTransportCat : Category :=
  { name := some "Transport", name_en := some "Transport",
    keywords := ["bus"] }

/-- A categorizer with no overrides, used for the `add_override` checks. -/
def c9Base : Categorizer := { categories := c8Categories, overrides := [] }

/-! ## Helper lemmas -/

/-- The partition loop is the triple of filters by the three branch guards. -/
theorem splitTransactions_eq (e hb hc : Bool) (ts : List Transaction) :
    splitTransactions e hb hc ts =
      (ts.filter (fun t => !pExcl e hb hc t && decide ((0 : ℚ) < t.amount)),
       ts.filter (fun t => !pExcl e hb hc t && !decide ((0 : ℚ) < t.amount)),
       ts.filter (fun t => pExcl e hb hc t)) := by
  induction ts with
  | nil => simp [splitTransactions]
  | cons t rest ih =>
    simp only [splitTransactions, ih, List.filter_cons]
    by_cases hp : pExcl e hb hc t
    · simp [hp]
    · by_cases ha : (0 : ℚ) < t.amount
      · simp [hp, ha]
      · simp [hp, ha]

/-- Membership in the transaction lists of a breakdown after one update. -/
theorem mem_breakdownAdd (d : List (String × ℚ × List Transaction))
    (cat : String) (amt : ℚ) (t u : Transaction) :
    (∃ e ∈ breakdownAdd d cat amt t, u ∈ e.2.2) ↔
      u = t ∨ ∃ e ∈ d, u ∈ e.2.2 := by
  induction d with
  | nil => simp [breakdownAdd]
  | cons p rest ih =>
    obtain ⟨c, tot, ts⟩ := p
    by_cases hcat : c = cat
    · simp only [breakdownAdd, if_pos hcat, List.mem_cons]
      constructor
      · rintro ⟨e, he | he, hu⟩
        · subst he; simp only [List.mem_append, List.mem_singleton] at hu
          rcases hu with hu | hu
          · exact Or.inr ⟨(c, tot, ts), by simp, hu⟩
          · exact Or.inl hu
        · exact Or.inr ⟨e, by simp [he], hu⟩
      · rintro (hu | ⟨e, he, hu⟩)
        · exact ⟨(c, tot + amt, ts ++ [t]), Or.inl rfl, by simp [hu]⟩
        · rcases he with he | he
          · subst he; exact ⟨(c, tot + amt, ts ++ [t]), Or.inl rfl, by simp [hu]⟩
          · exact ⟨e, Or.inr he, hu⟩
    · simp only [breakdownAdd, if_neg hcat, List.mem_cons]
      constructor
      · rintro ⟨e, he | he, hu⟩
        · subst he; exact Or.inr ⟨(c, tot, ts), by simp, hu⟩
        · rcases ih.mp ⟨e, he, hu⟩ with h | ⟨f, hf, hu2⟩
          · exact Or.inl h
          · exact Or.inr ⟨f, by simp [hf], hu2⟩
      · rintro (hu | ⟨e, he, hu⟩)
        · obtain ⟨f, hf, hu2⟩ := ih.mpr (Or.inl hu)
          exact ⟨f, Or.inr hf, hu2⟩
        · rcases he with he | he
          · subst he; exact ⟨(c, tot, ts), Or.inl rfl, hu⟩
          · obtain ⟨f, hf, hu2⟩ := ih.mpr (Or.inr ⟨e, he, hu⟩)
            exact ⟨f, Or.inr hf, hu2⟩

/-- Membership in the transaction lists of a finished breakdown. -/
theorem mem_buildBreakdown (amtOf : Transaction → ℚ) (l : List Transaction)
    (d : List (String × ℚ × List Transaction)) (u : Transaction) :
    (∃ e ∈ buildBreakdown amtOf l d, u ∈ e.2.2) ↔
      u ∈ l ∨ ∃ e ∈ d, u ∈ e.2.2 := by
  induction l generalizing d with
  | nil => simp [buildBreakdown]
  | cons t rest ih =>
    simp only [buildBreakdown, ih, mem_breakdownAdd, List.mem_cons]
    tauto

theorem mem_addOne {e : Transaction} {s : List Transaction} (t : Transaction)
    (h : e ∈ s) : e ∈ (addOne s t).1 := by
  unfold addOne
  split
  · exact h
  · simp [h]

theorem mem_addTransactions {e : Transaction} (s : List Transaction)
    (L : List Transaction) (h : e ∈ s) : e ∈ (addTransactions s L).1 := by
  induction L generalizing s with
  | nil => simpa [addTransactions]
  | cons t rest ih =>
    simp only [addTransactions]
    exact ih _ (mem_addOne t h)

theorem isDupOf_self (t : Transaction) : isDupOf t t = true := by
  simp [isDupOf]

/-- After an `add_transactions` call, every transaction of the batch has a
duplicate-match in the store. -/
theorem addTransactions_covers (s : List Transaction) (L : List Transaction) :
    ∀ t ∈ L, ∃ e ∈ (addTransactions s L).1, isDupOf e t = true := by
  induction L generalizing s with
  | nil => simp
  | cons t rest ih =>
    intro u hu
    rcases List.mem_cons.mp hu with h | h
    · subst h
      simp only [addTransactions]
      by_cases hd : s.any (fun e => isDupOf e u) = true
      · obtain ⟨e, he, hde⟩ := List.any_eq_true.mp hd
        refine ⟨e, mem_addTransactions _ _ (mem_addOne u he), by simpa using hde⟩
      · have h1 : (addOne s u).1 = s ++ [u] := by
          unfold addOne
          rw [if_neg hd]
        rw [h1]
        exact ⟨u, mem_addTransactions _ _ (by simp), isDupOf_self u⟩
    · simp only [addTransactions]
      exact ih (addOne s t).1 u h

/-- `add_transactions` is the identity on a store that already matches the
whole batch. -/
theorem addTransactions_noop (s : List Transaction) (L : List Transaction)
    (h : ∀ t ∈ L, ∃ e ∈ s, isDupOf e t = true) :
    addTransactions s L = (s, 0) := by
  induction L with
  | nil => rfl
  | cons t rest ih =>
    have hd : s.any (fun e => isDupOf e t) = true := by
      obtain ⟨e, he, h1⟩ := h t (by simp)
      exact List.any_eq_true.mpr ⟨e, he, by simpa using h1⟩
    have h1 : addOne s t = (s, 0) := by
      unfold addOne
      rw [if_pos hd]
    simp only [addTransactions, h1]
    rw [ih (fun u hu => h u (by simp [hu]))]
    rfl

/-- Updating a key then looking it up yields the new value. -/
theorem assocFind_assocUpdate (l : List (String × String)) (k v : String) :
    assocFind (assocUpdate l k v) k = some v := by
  induction l with
  | nil => simp [assocUpdate, assocFind]
  | cons p rest ih =>
    obtain ⟨k1, v1⟩ := p
    by_cases h : k1 = k
    · simp [assocUpdate, h, assocFind]
    · simp only [assocUpdate, if_neg h]
      simpa [assocFind, List.find?, h] using ih

/-! Batteries marks the rational-arithmetic primitives `@[irreducible]`;
they are restored to normal reducibility here so that concrete summaries
evaluate inside proofs. -/

attribute [local semireducible] Rat.add Rat.sub Rat.mul Rat.inv

/-! ## Claim theorems -/

/-- C1: with the default exclusion flag, whenever the selected month
contains both a bank-sourced and a credit_card-sourced transaction, every
selected transaction satisfying the bank-side issuer-fragment test is put
on the excluded-transfer list and kept out of both the income and the
expense category breakdowns; and whenever the two sources are not both
present, the excluded-transfer list is empty. -/
theorem monthly_summary_cc_transfer_exclusion (store : List Transaction)
    (year : Int) (month : Nat) :
    (((monthTransactions store year month).any
        (fun t => t.source == "bank") = true) →
     ((monthTransactions store year month).any
        (fun t => t.source == "credit_card") = true) →
     ∀ t ∈ monthTransactions store year month, isCreditCardTransfer t = true →
       t ∈ (getMonthlySummary store year month true).excluded_cc_transfers ∧
       (∀ e ∈ (getMonthlySummary store year month true).income_by_category,
         t ∉ e.2.2) ∧
       (∀ e ∈ (getMonthlySummary store year month true).expense_by_category,
         t ∉ e.2.2)) ∧
    (¬(((monthTransactions store year month).any
          (fun t => t.source == "bank") = true) ∧
       ((monthTransactions store year month).any
          (fun t => t.source == "credit_card") = true)) →
     (getMonthlySummary store year month true).excluded_cc_transfers = []) := by
  constructor
  · intro hb hc t ht hcct
    refine ⟨?_, ?_, ?_⟩
    · simp only [getMonthlySummary, hb, hc, splitTransactions_eq]
      exact List.mem_filter.mpr ⟨ht, by simp [pExcl, hcct]⟩
    · intro e he hmem
      simp only [getMonthlySummary, hb, hc, splitTransactions_eq] at he
      rcases (mem_buildBreakdown (fun t => t.amount) _ [] t).mp ⟨e, he, hmem⟩ with
        h2 | ⟨f, hf, _⟩
      · have h3 := (List.mem_filter.mp h2).2
        simp [pExcl, hcct] at h3
      · exact absurd hf (List.not_mem_nil f)
    · intro e he hmem
      simp only [getMonthlySummary, hb, hc, splitTransactions_eq] at he
      rcases (mem_buildBreakdown (fun t => |t.amount|) _ [] t).mp ⟨e, he, hmem⟩ with
        h2 | ⟨f, hf, _⟩
      · have h3 := (List.mem_filter.mp h2).2
        simp [pExcl, hcct] at h3
      · exact absurd hf (List.not_mem_nil f)
  · intro hnb
    simp only [getMonthlySummary, splitTransactions_eq]
    cases hB : (monthTransactions store year month).any (fun t => t.source == "bank") with
    | false => simp [hB, pExcl]
    | true =>
      cases hC : (monthTransactions store year month).any
          (fun t => t.source == "credit_card") with
      | false => simp [hB, hC, pExcl]
      | true => exact absurd ⟨hB, hC⟩ hnb

/-- C1 witness: a March-2026 store with one recognised bank-side settlement
line and one credit-card line; the settlement line is excluded. -/
theorem monthly_summary_cc_transfer_exclusion_witness :
    c2BankHe ∈ (getMonthlySummary [c2BankHe, c2Cc] 2026 3 true).excluded_cc_transfers ∧
    (∀ e ∈ (getMonthlySummary [c2BankHe, c2Cc] 2026 3 true).income_by_category,
      c2BankHe ∉ e.2.2) ∧
    (∀ e ∈ (getMonthlySummary [c2BankHe, c2Cc] 2026 3 true).expense_by_category,
      c2BankHe ∉ e.2.2) :=
  (monthly_summary_cc_transfer_exclusion [c2BankHe, c2Cc] 2026 3).1
    (by decide) (by decide) c2BankHe (by decide) (by decide)

/-- C2 counterexample: with the spec's English description
"ISRACARD SETTLEMENT" the fixed fragment list matches nothing, so nothing
is excluded: `total_excluded = 0` and `total_expenses = 1000`, refuting the
claimed `500`/`500`. -/
theorem english_issuer_description_not_excluded :
    (getMonthlySummary [c2Bank, c2Cc] 2026 3 true).total_excluded = 0 ∧
    (getMonthlySummary [c2Bank, c2Cc] 2026 3 true).total_expenses = 1000 ∧
    ¬((getMonthlySummary [c2Bank, c2Cc] 2026 3 true).total_excluded = 500 ∧
      (getMonthlySummary [c2Bank, c2Cc] 2026 3 true).total_expenses = 500) := by
  decide

/-- C2 (amended): with a bank description the fixed fragment list does
recognise (the issuer name "ישראכרט"), the double-counting guard fires:
`total_excluded = 500` and `total_expenses = 500`. -/
theorem recognised_issuer_description_excluded :
    (getMonthlySummary [c2BankHe, c2Cc] 2026 3 true).total_excluded = 500 ∧
    (getMonthlySummary [c2BankHe, c2Cc] 2026 3 true).total_expenses = 500 := by
  decide

/-- C3: a transaction dated exactly midnight on the first of the next
month IS selected by `get_monthly_summary` (the date filter keeps
`date = end_date`), so it is counted both in the March and in the April
summary — the code violates the claimed half-open month window. -/
theorem next_month_first_is_selected :
    aprilFirstTx ∈ monthTransactions [aprilFirstTx] 2026 3 ∧
    (getMonthlySummary [aprilFirstTx] 2026 3 true).transaction_count = 1 ∧
    aprilFirstTx ∈ monthTransactions [aprilFirstTx] 2026 4 ∧
    (getMonthlySummary [aprilFirstTx] 2026 4 true).transaction_count = 1 := by
  decide

/-- C4 counterexample: a selected zero-amount transaction lands in the
expense category breakdown (the `else` branch of the partition), refuting
"appears in neither breakdown". -/
theorem zero_amount_lands_in_expense_breakdown :
    (getMonthlySummary [zeroTx] 2026 3 true).expense_by_category =
      [("misc", 0, [zeroTx])] ∧
    (getMonthlySummary [zeroTx] 2026 3 true).income_by_category = [] ∧
    (getMonthlySummary [zeroTx] 2026 3 true).transaction_count = 1 := by
  decide

/-- C4 (amended): a selected zero-amount transaction (not an excluded
transfer) is classified as an expense: it appears in the expense category
breakdown, in no income entry, and is counted in `transaction_count`. -/
theorem zero_amount_classified_as_expense (store : List Transaction)
    (year : Int) (month : Nat) (t : Transaction)
    (ht : t ∈ monthTransactions store year month) (h0 : t.amount = 0)
    (hcc : isCreditCardTransfer t = false) :
    (∃ e ∈ (getMonthlySummary store year month true).expense_by_category,
      t ∈ e.2.2) ∧
    (∀ e ∈ (getMonthlySummary store year month true).income_by_category,
      t ∉ e.2.2) ∧
    (getMonthlySummary store year month true).transaction_count =
      (monthTransactions store year month).length := by
  refine ⟨?_, ?_, ?_⟩
  · simp only [getMonthlySummary, splitTransactions_eq]
    refine (mem_buildBreakdown (fun t => |t.amount|) _ [] t).mpr (Or.inl ?_)
    exact List.mem_filter.mpr ⟨ht, by simp [pExcl, hcc, h0]⟩
  · intro e he hmem
    simp only [getMonthlySummary, splitTransactions_eq] at he
    rcases (mem_buildBreakdown (fun t => t.amount) _ [] t).mp ⟨e, he, hmem⟩ with
      h2 | ⟨f, hf, _⟩
    · have h3 := (List.mem_filter.mp h2).2
      simp [h0] at h3
    · exact absurd hf (List.not_mem_nil f)
  · simp [getMonthlySummary]

/-- C4 witness: the zero-amount March transaction instantiates the amended
claim. -/
theorem zero_amount_classified_as_expense_witness :
    (∃ e ∈ (getMonthlySummary [zeroTx] 2026 3 true).expense_by_category,
      zeroTx ∈ e.2.2) ∧
    (∀ e ∈ (getMonthlySummary [zeroTx] 2026 3 true).income_by_category,
      zeroTx ∉ e.2.2) ∧
    (getMonthlySummary [zeroTx] 2026 3 true).transaction_count =
      (monthTransactions [zeroTx] 2026 3).length :=
  zero_amount_classified_as_expense [zeroTx] 2026 3 zeroTx
    (by decide) (by decide) (by decide)

/-- Every transaction the credit-card section scanner emits is an ILS
expense: the hard-coded `'ILS'` currency and `-abs` amount. -/
theorem ccScan_output_invariant (filePath : String) (cardNumber : Option String)
    (rows : List (List Cell)) (b : Bool) :
    ∀ t ∈ ccScan filePath cardNumber rows b,
      t.currency = "ILS" ∧ t.amount ≤ 0 := by
  induction rows generalizing b with
  | nil => intro t ht; simp [ccScan] at ht
  | cons row rest ih =>
    intro t ht
    simp only [ccScan] at ht
    split at ht
    · exact ih _ t ht
    · split at ht
      · split at ht
        · exact ih _ t ht
        · split at ht
          · exact ih _ t ht
          · split at ht
            · exact ih _ t ht
            · split at ht
              · exact ih _ t ht
              · split at ht
                · exact ih _ t ht
                · rcases List.mem_cons.mp ht with h | h
                  · subst h
                    exact ⟨rfl, neg_nonpos.mpr (abs_nonneg _)⟩
                  · exact ih _ t h
      · exact ih _ t ht

/-- C5 counterexample: a section row whose currency cell is `'$'` (detected
settlement symbol USD) still yields a transaction with currency `"ILS"`,
refuting "carries the currency code determined by the detected settlement
currency symbol". -/
theorem dollar_row_transaction_currency_is_ils :
    (parseCreditCardStatement "cc_1234.xlsx" ccRows).map Transaction.currency =
      ["ILS"] ∧
    ¬((parseCreditCardStatement "cc_1234.xlsx" ccRows).map Transaction.currency =
      ["USD"]) ∧
    detectedCurrency (Cell.str "$") = "USD" := by
  decide

/-- C5 (amended): every transaction the credit-card parser produces has
currency `"ILS"`, whatever the detected settlement symbol was (the
detection result is computed and discarded). -/
theorem cc_parser_currency_always_ils (filePath : String)
    (rows : List (List Cell)) :
    ∀ t ∈ parseCreditCardStatement filePath rows, t.currency = "ILS" := by
  intro t ht
  simp only [parseCreditCardStatement] at ht
  exact (ccScan_output_invariant _ _ _ _ t ht).1

/-- C5 witness: the `'$'`-row statement instantiates the amended claim. -/
theorem cc_parser_currency_always_ils_witness : ccParsedTx.currency = "ILS" :=
  cc_parser_currency_always_ils "cc_1234.xlsx" ccRows ccParsedTx (by decide)

/-- C6: two transactions with equal date, equal description and amounts
within the `0.01` tolerance produce a single stored record, whether they
are added in one call or in two, regardless of `source_file`. -/
theorem add_transactions_dedups_identity (store : List Transaction)
    (t1 t2 : Transaction) (hdate : t1.date = t2.date)
    (hdesc : t1.description = t2.description)
    (hamt : |t1.amount - t2.amount| < 1 / 100)
    (hnew : ∀ e ∈ store, isDupOf e t1 = false) :
    (addTransactions store [t1, t2]).1 = store ++ [t1] ∧
    (addTransactions (addTransactions store [t1]).1 [t2]).1 = store ++ [t1] ∧
    (store ++ [t1]).countP (fun e => isDupOf e t1) = 1 := by
  have h12 : isDupOf t1 t2 = true := by
    simp only [isDupOf, Bool.and_eq_true, decide_eq_true_eq]
    exact ⟨⟨hdate, hdesc⟩, hamt⟩
  have hnodup : (store.any fun e => isDupOf e t1) = false := by
    simp only [List.any_eq_false]
    intro e he
    simp [hnew e he]
  have hAdd1 : addOne store t1 = (store ++ [t1], 1) := by
    unfold addOne
    rw [if_neg (by simp [hnodup])]
  have hDup2 : ((store ++ [t1]).any fun e => isDupOf e t2) = true :=
    List.any_eq_true.mpr ⟨t1, by simp, by simp [h12]⟩
  have hAdd2 : addOne (store ++ [t1]) t2 = (store ++ [t1], 0) := by
    unfold addOne
    rw [if_pos (by simp [hDup2])]
  refine ⟨?_, ?_, ?_⟩
  · simp [addTransactions, hAdd1, hAdd2]
  · simp [addTransactions, hAdd1, hAdd2]
  · rw [List.countP_append]
    have hz : store.countP (fun e => isDupOf e t1) = 0 := by
      rw [List.countP_eq_zero]
      intro e he
      simp [hnew e he]
    rw [hz]
    simp [List.countP_cons, isDupOf_self t1]

/-- C6 witness: two records differing only by `source_file` and an amount
gap of `1/200` leave one stored record. -/
theorem add_transactions_dedups_identity_witness :
    (addTransactions [] [c6T1, c6T2]).1 = [] ++ [c6T1] ∧
    (addTransactions (addTransactions [] [c6T1]).1 [c6T2]).1 = [] ++ [c6T1] ∧
    ([] ++ [c6T1]).countP (fun e => isDupOf e c6T1) = 1 :=
  add_transactions_dedups_identity [] c6T1 c6T2 (by decide) (by decide)
    (by decide) (by decide)

/-- C7: re-adding any batch to the store it already produced adds nothing:
the second call returns the same store and an added count of `0`. -/
theorem add_transactions_idempotent (store L : List Transaction) :
    addTransactions (addTransactions store L).1 L =
      ((addTransactions store L).1, 0) :=
  addTransactions_noop _ _ (addTransactions_covers store L)

/-- C8 counterexample: an exact-match override pointing at a key missing
from the catalog (here the `'אחר'` sentinel, accepted by `add_override`)
is skipped, and a catalog keyword decides instead — `categorize` does not
return the override's category key. -/
theorem exact_override_with_unknown_key_loses :
    (addOverride { categories := c8Categories, overrides := [] }
      "pizza hut" "אחר").1 = true ∧
    (addOverride { categories := c8Categories, overrides := [] }
      "pizza hut" "אחר").2 = c8State ∧
    assocFind c8State.overrides (pyStrip "pizza hut") = some "אחר" ∧
    (categorize c8State "pizza hut").1 = "food" ∧
    "food" ≠ "אחר" := by
  decide

/-- C8 (amended): when the trimmed description exactly equals an override
pattern whose category key exists in the catalog, `categorize` returns
that key, taking precedence over any keyword match. -/
theorem exact_override_wins_for_known_key (c : Categorizer) (d k : String)
    (cat : Category) (ho : assocFind c.overrides (pyStrip d) = some k)
    (hk : assocFind c.categories k = some cat) :
    (categorize c d).1 = k := by
  simp [categorize, ho, hk]

/-- C8 witness: the override sends "pizza hut" to `transport` although the
`food` keyword "pizza" also matches. -/
theorem exact_override_wins_for_known_key_witness :
    (categorize c8wState "pizza hut").1 = "transport" :=
  exact_override_wins_for_known_key c8wState "pizza hut" "transport"
    c8wTransportCat (by decide) (by decide)

/-- C9: `add_override` with a key that is neither a catalog key nor the
`'אחר'` sentinel returns failure and leaves the state untouched; with a
valid key it returns success and the override mapping now sends the
description to that key, the catalog unchanged. -/
theorem add_override_validation (c : Categorizer) (d k : String) :
    ((assocFind c.categories k = none ∧ k ≠ "אחר") →
      addOverride c d k = (false, c)) ∧
    ((assocFind c.categories k ≠ none ∨ k = "אחר") →
      (addOverride c d k).1 = true ∧
      assocFind (addOverride c d k).2.overrides d = some k ∧
      (addOverride c d k).2.categories = c.categories) := by
  constructor
  · intro h
    simp only [addOverride, if_pos h]
  · intro h
    have hcond : ¬(assocFind c.categories k = none ∧ k ≠ "אחר") := by tauto
    have he : addOverride c d k =
        (true, { c with overrides := assocUpdate c.overrides d k }) := by
      unfold addOverride
      rw [if_neg hcond]
    rw [he]
    exact ⟨rfl, assocFind_assocUpdate c.overrides d k, rfl⟩

/-- C9 witness: an unknown key is rejected without touching the state, a
catalog key is inserted and found again. -/
theorem add_override_validation_witness :
    addOverride c9Base "coffee shop" "bogus" = (false, c9Base) ∧
    ((addOverride c9Base "coffee shop" "food").1 = true ∧
     assocFind (addOverride c9Base "coffee shop" "food").2.overrides
       "coffee shop" = some "food" ∧
     (addOverride c9Base "coffee shop" "food").2.categories =
       c9Base.categories) :=
  ⟨(add_override_validation c9Base "coffee shop" "bogus").1 (by decide),
   (add_override_validation c9Base "coffee shop" "food").2 (by decide)⟩

/-- C10: every transaction the credit-card parser produces has a
non-positive amount (`-abs` of the chosen amount), so a positive statement
row is still recorded as an expense, never as income. -/
theorem cc_parser_amount_nonpositive (filePath : String)
    (rows : List (List Cell)) :
    ∀ t ∈ parseCreditCardStatement filePath rows, t.amount ≤ 0 := by
  intro t ht
  simp only [parseCreditCardStatement] at ht
  exact (ccScan_output_invariant _ _ _ _ t ht).2

/-- C10 witness: the row's settlement amount is the positive `350`, and the
stored amount is still non-positive. -/
theorem cc_parser_amount_nonpositive_witness : ccParsedTx.amount ≤ 0 :=
  cc_parser_amount_nonpositive "cc_1234.xlsx" ccRows ccParsedTx (by decide)
